import Mathlib

/-!
Shallow embedding of the hummn-ratelimit engine: the three admission
algorithms (fixed window, sliding window, token bucket), the script
executor (safeEval), the reset pattern scan, and the orchestrator
(limit race, blockUntilReady).  Machine numbers are modelled as `Int`
(all quantities in the engine are integer milliseconds and counts);
redis state is passed explicitly; fallible paths return `Except`.
-/

namespace HummnRatelimit

/-- The user-visible limit response (`RatelimitResponse` in the source);
the always-resolved `pending` future carries no information and is
omitted. -/
structure RatelimitResponse where
  success : Bool
  limit : Int
  remaining : Int
  reset : Int
  reason : Option String
  deriving DecidableEq, Repr

/-- The `incrementBy` convention shared by all three algorithms:
`rate ? Math.max(1, rate) : 1`.  A missing or zero (falsy) rate gives 1,
any other rate gives `max 1 rate`. -/
def jsIncrementBy (rate : Option Int) : Int :=
  match rate with
  | none => 1
  | some r => if r = 0 then 1 else max 1 r

/-- Lua `math.floor(a / b)` on integer inputs. -/
def luaFloorDiv (a b : Int) : Int := Int.fdiv a b

/-- Lua `math.ceil(a / b)` on integer inputs. -/
def luaCeilDiv (a b : Int) : Int := -(Int.fdiv (-a) b)

/-! ## Fixed window -/

/-- The fixed-window limit script: validates the window, reads whether
the key exists, increments the counter by `incrementBy`, sets a fresh
expiry when the key was absent, and returns the post-increment count.
Result: `(count, new counter value, pexpire issued)`. -/
def fixedWindowLimitScript (window incrementBy : Int) (counter : Option Int) :
    Except String (Int × Option Int × Option Int) :=
  if window ≤ 0 then Except.error "Invalid window"
  else
    let keyWasThere := counter.isSome
    let count := counter.getD 0 + incrementBy
    Except.ok (count, some count, if keyWasThere then none else some window)

/-- Client side of `fixedWindow.limit`: derives the bucket, runs the
script, and computes `(success, limit, remaining, reset)` from the
post-increment count. -/
def fixedWindowLimit (tokens window now : Int) (rate : Option Int)
    (counter : Option Int) :
    Except String (RatelimitResponse × Option Int) :=
  let bucket := luaFloorDiv now window
  let incrementBy := jsIncrementBy rate
  match fixedWindowLimitScript window incrementBy counter with
  | Except.error e => Except.error e
  | Except.ok (count, counter2, _) =>
      Except.ok
        ({ success := decide (count ≤ tokens)
         , limit := tokens
         , remaining := max 0 (tokens - count)
         , reset := (bucket + 1) * window
         , reason := none }, counter2)

/-- Client side of `fixedWindow.getRemaining`: the script returns the
current bucket counter (or 0), the client clamps `tokens - used` at 0. -/
def fixedWindowGetRemaining (tokens window now : Int) (counter : Option Int) :
    Int × Int :=
  let bucket := luaFloorDiv now window
  let used := counter.getD 0
  (max 0 (tokens - used), (bucket + 1) * window)

/-! ## Sliding window -/

/-- Weighted count carried over from the previous window:
`math.floor((1 - (now % window) / window) * prev)`. -/
def slidingWeightedPrev (now window prev : Int) : Int :=
  luaFloorDiv ((window - now % window) * prev) window

/-- The sliding-window limit script: validates inputs, reads the two
counters, rejects with `-1` when the weighted sum already reaches
`tokens`, otherwise increments the current counter and returns
`tokens - (newValue + weightedPrev)`.
Result: `(reply, new current counter value)`. -/
def slidingWindowLimitScript (tokens now window incrementBy : Int)
    (cur prev : Option Int) : Except String (Int × Option Int) :=
  if tokens ≤ 0 then Except.error "Invalid tokens"
  else if now ≤ 0 then Except.error "Invalid timestamp"
  else if window ≤ 0 then Except.error "Invalid window"
  else if incrementBy ≤ 0 then Except.error "Invalid incrementBy"
  else
    let c := cur.getD 0
    let p := prev.getD 0
    let weightedPrev := slidingWeightedPrev now window p
    if tokens ≤ weightedPrev + c then Except.ok (-1, cur)
    else
      let newValue := c + incrementBy
      Except.ok (tokens - (newValue + weightedPrev), some newValue)

/-- Client side of `slidingWindow.limit`: the raw script reply is the
`remaining` field and `success := remaining >= 0`. -/
def slidingWindowLimit (tokens window now : Int) (rate : Option Int)
    (cur prev : Option Int) :
    Except String (RatelimitResponse × Option Int) :=
  let currentWindow := luaFloorDiv now window
  let incrementBy := jsIncrementBy rate
  match slidingWindowLimitScript tokens now window incrementBy cur prev with
  | Except.error e => Except.error e
  | Except.ok (remaining, cur2) =>
      Except.ok
        ({ success := decide (0 ≤ remaining)
         , limit := tokens
         , remaining := remaining
         , reset := (currentWindow + 1) * window
         , reason := none }, cur2)

/-- Client side of `slidingWindow.getRemaining`: the script returns
`cur + weightedPrev`, the client clamps `tokens - used` at 0. -/
def slidingWindowGetRemaining (tokens window now : Int)
    (cur prev : Option Int) : Int × Int :=
  let currentWindow := luaFloorDiv now window
  let used := cur.getD 0 + slidingWeightedPrev now window (prev.getD 0)
  (max 0 (tokens - used), (currentWindow + 1) * window)

/-! ## Token bucket -/

/-- The `{refilledAt, tokens}` hash stored per identifier. -/
structure TBState where
  refilledAt : Int
  tokens : Int
  deriving DecidableEq, Repr

/-- Bucket initialisation: an absent hash starts full at `now`. -/
def tbInit (maxTokens now : Int) (bucket : Option TBState) : TBState :=
  match bucket with
  | none => ⟨now, maxTokens⟩
  | some s => s

/-- Refill step of the token-bucket script: when at least one interval
has elapsed, add `numRefills * refillRate` tokens capped at `maxTokens`
and advance `refilledAt` by whole intervals only. -/
def tbRefill (maxTokens interval refillRate now : Int) (s : TBState) : TBState :=
  if s.refilledAt + interval ≤ now then
    let numRefills := luaFloorDiv (now - s.refilledAt) interval
    ⟨s.refilledAt + numRefills * interval,
     min maxTokens (s.tokens + numRefills * refillRate)⟩
  else s

/-- The token-bucket limit script: loads or initialises the bucket,
applies refills, refuses with `{0, maxTokens, 0, retryAfter - now}`
writing nothing when fewer than `incrementBy` tokens are available,
otherwise consumes, stores the new hash, sets its expiry, and returns
`{1, maxTokens, remaining, resetAt - now}`.
Result: `(reply array, new hash value, pexpire issued)`. -/
def tokenBucketLimitScript (maxTokens interval refillRate now incrementBy : Int)
    (bucket : Option TBState) : List Int × Option TBState × Option Int :=
  let s := tbRefill maxTokens interval refillRate now (tbInit maxTokens now bucket)
  if s.tokens < incrementBy then
    let intervalsNeeded := luaCeilDiv (incrementBy - s.tokens) refillRate
    let retryAfter := s.refilledAt + intervalsNeeded * interval
    ([0, maxTokens, 0, retryAfter - now], bucket, none)
  else
    let remaining := s.tokens - incrementBy
    let intervalsToRefill := luaCeilDiv (maxTokens - remaining) refillRate
    ([1, maxTokens, remaining, s.refilledAt + interval - now],
     some ⟨s.refilledAt, remaining⟩,
     some (intervalsToRefill * interval * 2))

/-- Client side of `tokenBucket.limit` as written in the source: the
reply array is destructured as `[remaining, reset]` — its first two
elements — and `success := remaining >= 0`. -/
def tokenBucketLimit (maxTokens interval refillRate now : Int)
    (rate : Option Int) (bucket : Option TBState) :
    RatelimitResponse × Option TBState :=
  let incrementBy := jsIncrementBy rate
  let out := tokenBucketLimitScript maxTokens interval refillRate now incrementBy bucket
  let remaining := out.1.getD 0 0
  let reset := out.1.getD 1 0
  ({ success := decide (0 ≤ remaining)
   , limit := maxTokens
   , remaining := remaining
   , reset := reset
   , reason := none }, out.2.1)

/-- Sentinel for a missing token-bucket hash (`tokenBucketIdentifierNotFound`). -/
def tokenBucketIdentifierNotFound : Int := -1

/-- Client side of `tokenBucket.getRemaining`: the script returns
`{maxTokens, -1}` for an absent bucket and `{tokens, refilledAt}`
otherwise; the client maps the sentinel to `now + interval`. -/
def tokenBucketGetRemaining (maxTokens interval now : Int)
    (bucket : Option TBState) : Int × Int :=
  let reply :=
    match bucket with
    | none => (maxTokens, tokenBucketIdentifierNotFound)
    | some s => (s.tokens, s.refilledAt)
  (reply.1,
   if reply.2 = tokenBucketIdentifierNotFound then now + interval
   else reply.2 + interval)

/-! ## Script executor (safeEval) -/

/-- A redis reply: integer, bulk string, or integer array — the shapes
the engine consumes. -/
inductive RedisReply where
  | num : Int → RedisReply
  | str : String → RedisReply
  | arr : List Int → RedisReply
  deriving DecidableEq, Repr

/-- Lowercasing used by the NOSCRIPT test (`toLowerCase`). -/
def lowerChars (s : String) : List Char := s.toList.map Char.toLower

/-- `needle` occurs as a contiguous run inside `haystack`
(JavaScript `String.includes`). -/
def listContains {α : Type} [BEq α] : (needle haystack : List α) → Bool
  | needle, [] => needle.isEmpty
  | needle, c :: cs => needle.isPrefixOf (c :: cs) || listContains needle cs

/-- The NOSCRIPT test of the source: the stringified error, lowercased,
contains the substring "noscript". -/
def containsNoscript (e : String) : Bool :=
  listContains "noscript".toList (lowerChars e)

instance {ε α : Type} [DecidableEq ε] [DecidableEq α] :
    DecidableEq (Except ε α) := fun x y =>
  match x, y with
  | Except.ok a, Except.ok b =>
      if h : a = b then isTrue (by rw [h])
      else isFalse (fun hh => h (Except.ok.inj hh))
  | Except.ok _, Except.error _ => isFalse (fun hh => nomatch hh)
  | Except.error _, Except.ok _ => isFalse (fun hh => nomatch hh)
  | Except.error e, Except.error f =>
      if h : e = f then isTrue (by rw [h])
      else isFalse (fun hh => h (Except.error.inj hh))

/-- The redis client as the executor sees it: the outcome of `EVALSHA`
against the current script cache, the outcome `EVALSHA` would have after
a `SCRIPT LOAD`, and the sha that `SCRIPT LOAD` replies with. -/
structure ScriptClient where
  evalResult : Except String RedisReply
  evalAfterLoad : RedisReply
  loadedHash : String
  deriving Repr

/-- The script executor exactly as the source writes it: try `EVALSHA`;
on an error containing NOSCRIPT issue `SCRIPT LOAD` and return that
call's reply (the sha string); surface any other error unchanged. -/
def safeEval (c : ScriptClient) : Except String RedisReply :=
  match c.evalResult with
  | Except.ok v => Except.ok v
  | Except.error e =>
      if containsNoscript e then Except.ok (RedisReply.str c.loadedHash)
      else Except.error e

/-- Modelled from the spec: the script-executor contract of spec §4.2 —
on a NOSCRIPT error, `SCRIPT LOAD` then retry the `EVALSHA` once with
the original arguments and return that retry's reply; surface any other
error unchanged. -/
def safeEvalSpec (c : ScriptClient) : Except String RedisReply :=
  match c.evalResult with
  | Except.ok v => Except.ok v
  | Except.error e =>
      if containsNoscript e then Except.ok c.evalAfterLoad
      else Except.error e

/-! ## Reset: glob patterns and the scan-and-unlink script -/

/-- Fuel-driven matcher for redis glob-style `MATCH` patterns restricted
to literal characters and the `*` wildcard — the only constructs the
reset pattern uses.  `*` matches any (possibly empty) run of characters. -/
def globMatchFuel : Nat → List Char → List Char → Bool
  | 0, _, _ => false
  | _ + 1, [], s => s.isEmpty
  | fuel + 1, p :: ps, s =>
    if p = '*' then
      match s with
      | [] => globMatchFuel fuel ps []
      | _ :: cs => globMatchFuel fuel ps s || globMatchFuel fuel (p :: ps) cs
    else
      match s with
      | [] => false
      | c :: cs => p = c && globMatchFuel fuel ps cs

/-- Whether glob pattern `p` matches string `s`. -/
def globMatch (p s : String) : Bool :=
  globMatchFuel (p.length + s.length + 1) p.toList s.toList

/-- `[a, b].join(":")` as used throughout the key derivations. -/
def joinKey (a b : String) : String := a ++ ":" ++ b

/-- The pattern `resetUsedTokens` builds: the orchestrator joins
`prefix:identifier` and the algorithm's `resetTokens` appends `:*`. -/
def resetPattern (pfx id : String) : String := joinKey (joinKey pfx id) "*"

/-- The key the token-bucket `limit` writes: the prefixed identifier
itself, with no suffix. -/
def tokenBucketKey (pfx id : String) : String := joinKey pfx id

/-- The key the fixed-window (and sliding-window current-bucket) `limit`
writes: the prefixed identifier with the bucket index appended. -/
def fixedWindowKey (pfx id : String) (bucket : Int) : String :=
  joinKey (joinKey pfx id) (toString bucket)

/-- The reset script's effect on the keyspace: every key matching the
pattern is unlinked (the scan loop visits the whole keyspace for the
small per-identifier cardinalities the engine produces). -/
def resetScriptModel {V : Type} (pattern : String)
    (store : List (String × V)) : List (String × V) :=
  store.filter (fun kv => !globMatch pattern kv.1)

/-! ## Orchestrator: the timeout race and blockUntilReady -/

/-- The fail-open response the watchdog resolves with. -/
def timedOutResponse : RatelimitResponse :=
  { success := true, limit := 0, remaining := 0, reset := 0
  , reason := some "timeout" }

/-- `BaseRatelimit.limit`: the store round-trip raced against the
watchdog.  `storeSettlesFirst` encodes which promise settles first; the
watchdog only joins the race when `timeout > 0`, so with `timeout ≤ 0`
the store's outcome — including a transport error — is returned as is. -/
def limitRace (timeoutMs : Int) (storeResult : Except String RatelimitResponse)
    (storeSettlesFirst : Bool) : Except String RatelimitResponse :=
  if 0 < timeoutMs then
    if storeSettlesFirst then storeResult else Except.ok timedOutResponse
  else storeResult

/-- The retry loop of `blockUntilReady`, driven by the environment: the
successive `limit()` responses and the successive `Date.now()` readings
(two per failed iteration: before and after the sleep).  Returns the
final response, the sleep durations issued, and the number of `limit`
calls made.  Exhausting the supplied responses or clock is a model
artifact reported as a distinguished error. -/
def burLoop (deadline : Int) :
    List RatelimitResponse → List Int →
    Except String (RatelimitResponse × List Int × Nat)
  | [], _ => Except.error "model: responses exhausted"
  | res :: rest, clock =>
    if res.success then Except.ok (res, [], 1)
    else if res.reset = 0 then
      Except.error "[Invalid Reset]: This should not happen"
    else
      match clock with
      | now1 :: now2 :: clockRest =>
        let wait := min res.reset deadline - now1
        if deadline < now2 then Except.ok (res, [wait], 1)
        else
          match burLoop deadline rest clockRest with
          | Except.ok (r, ws, n) => Except.ok (r, wait :: ws, n + 1)
          | Except.error e => Except.error e
      | _ => Except.error "model: clock exhausted"

/-- `BaseRatelimit.blockUntilReady`: fails synchronously on a
non-positive timeout, otherwise fixes `deadline = now0 + timeout` and
runs the retry loop. -/
def blockUntilReady (timeout now0 : Int) (rs : List RatelimitResponse)
    (clock : List Int) : Except String (RatelimitResponse × List Int × Nat) :=
  if timeout ≤ 0 then Except.error "timeout must be positive"
  else burLoop (now0 + timeout) rs clock

/-! ## Theorems -/

/-- Claim C1 (code-bug evidence): at a refused token-bucket call the
script replies `[0, 3, 0, 500]` — success flag 0, limit 3, remaining 0,
delta-to-reset 500 — yet the client, destructuring only the first two
elements, reports `success = true` and `remaining = 0` (the success
flag) and `reset = 3` (the limit), instead of extracting remaining from
index 2 and computing `reset = now + 500 = 1000` with `success = false`
as the claimed contract requires. -/
theorem C1_token_bucket_reply_indexing :
    (tokenBucketLimitScript 3 1000 1 500 1 (some ⟨0, 0⟩)).1 = [0, 3, 0, 500]
    ∧ tokenBucketLimit 3 1000 1 500 none (some ⟨0, 0⟩) =
        ({ success := true, limit := 3, remaining := 0, reset := 3
         , reason := none }, some ⟨0, 0⟩)
    ∧ (3 : Int) ≠ 500 + 500 := by
  refine ⟨rfl, rfl, by decide⟩

/-- Claim C2 (code-bug evidence): on a NOSCRIPT error the executor
returns the `SCRIPT LOAD` reply (the sha string) instead of loading and
then retrying the `EVALSHA`; the spec-modelled executor returns the
retried reply; non-NOSCRIPT errors are surfaced unchanged by both. -/
theorem C2_safeEval_returns_load_reply :
    safeEval ⟨Except.error "NOSCRIPT No matching script. Please use EVAL."
             , RedisReply.num 7, "abc123"⟩
      = Except.ok (RedisReply.str "abc123")
    ∧ safeEvalSpec ⟨Except.error "NOSCRIPT No matching script. Please use EVAL."
                   , RedisReply.num 7, "abc123"⟩
      = Except.ok (RedisReply.num 7)
    ∧ RedisReply.str "abc123" ≠ RedisReply.num 7
    ∧ safeEval ⟨Except.error "ERR something broke", RedisReply.num 7, "abc123"⟩
      = Except.error "ERR something broke" := by
  refine ⟨by decide, by decide, by decide, by decide⟩

/-- Claim C3 (code-bug evidence): the reset pattern `prefix:id:*` does
match the suffixed fixed-window key but does not match the token
bucket's suffix-free key `prefix:id`, so the modelled reset leaves the
bucket hash in place, and the next token-bucket `limit` on the stale
depleted bucket does not return `remaining = maxTokens - 1`. -/
theorem C3_reset_misses_token_bucket_key :
    globMatch (resetPattern "@hummn/ratelimit" "u")
        (fixedWindowKey "@hummn/ratelimit" "u" 12345) = true
    ∧ globMatch (resetPattern "@hummn/ratelimit" "u")
        (tokenBucketKey "@hummn/ratelimit" "u") = false
    ∧ resetScriptModel (resetPattern "@hummn/ratelimit" "u")
        [(tokenBucketKey "@hummn/ratelimit" "u", (⟨0, 0⟩ : TBState))]
      = [(tokenBucketKey "@hummn/ratelimit" "u", ⟨0, 0⟩)]
    ∧ (tokenBucketLimit 5 1000 1 500 none (some ⟨0, 0⟩)).1.remaining ≠ 5 - 1 := by
  refine ⟨by decide, by decide, by decide, by decide⟩

/-- Claim C5: whenever the token-bucket `limit` receives the script's
array reply, the response has `success = true` — the client binds the
0/1 success flag (element 0) as `remaining`, and `remaining >= 0` holds
for both 0 and 1 — so this limiter never reports a rejection. -/
theorem C5_token_bucket_never_rejects
    (maxTokens interval refillRate now : Int) (rate : Option Int)
    (bucket : Option TBState) :
    (tokenBucketLimit maxTokens interval refillRate now rate bucket).1.success
      = true := by
  simp only [tokenBucketLimit, tokenBucketLimitScript]
  split <;> simp

/-- Claim C6: with `timeout > 0`, when the store round-trip does not
settle before the watchdog, `limit` returns the fail-open response
`{success := true, limit := 0, remaining := 0, reset := 0,
reason := "timeout"}`; with `timeout = 0` the watchdog never joins the
race, so the store outcome — including a transport error — is returned
unchanged. -/
theorem C6_timeout_race (t : Int) (s : Except String RatelimitResponse)
    (b : Bool) :
    (0 < t → limitRace t s false = Except.ok timedOutResponse)
    ∧ limitRace 0 s b = s := by
  constructor
  · intro ht
    simp [limitRace, ht]
  · simp [limitRace]

theorem C6_timeout_race_witness :
    (0 : Int) < 100
    ∧ limitRace 100 (Except.error "connection refused") false
        = Except.ok timedOutResponse :=
  ⟨by decide,
   (C6_timeout_race 100 (Except.error "connection refused") false).1 (by decide)⟩

/-- Claim C9: for a fixed-window `limit` call with a valid window, the
response is computed from the post-increment counter
`count = stored + incrementBy` as `success = (count ≤ tokens)`,
`remaining = max 0 (tokens - count)`, and
`reset = (bucket + 1) * windowMs` with `bucket = floor(now / windowMs)`. -/
theorem C9_fixed_window_response (tokens window now : Int)
    (rate : Option Int) (counter : Option Int) (hwin : 0 < window) :
    fixedWindowLimit tokens window now rate counter =
      Except.ok
        ({ success := decide (counter.getD 0 + jsIncrementBy rate ≤ tokens)
         , limit := tokens
         , remaining := max 0 (tokens - (counter.getD 0 + jsIncrementBy rate))
         , reset := (luaFloorDiv now window + 1) * window
         , reason := none }, some (counter.getD 0 + jsIncrementBy rate)) := by
  have h : ¬window ≤ 0 := not_le.mpr hwin
  simp [fixedWindowLimit, fixedWindowLimitScript, h]

theorem C9_fixed_window_response_witness :
    (0 : Int) < 1000
    ∧ fixedWindowLimit 10 1000 2500 none (some 3) =
        Except.ok
          ({ success := true, limit := 10, remaining := 6, reset := 3000
           , reason := none }, some 4) :=
  ⟨by decide, C9_fixed_window_response 10 1000 2500 none (some 3) (by decide)⟩

/-- Claim C10: `blockUntilReady` with a non-positive timeout fails
synchronously with the message "timeout must be positive"; the result
does not depend on any store interaction (the responses and clock
streams are untouched), so the store state for the identifier is
unchanged. -/
theorem C10_block_until_ready_nonpositive (t now0 : Int)
    (rs : List RatelimitResponse) (clock : List Int) (ht : t ≤ 0) :
    blockUntilReady t now0 rs clock
      = Except.error "timeout must be positive" := by
  simp [blockUntilReady, ht]

theorem C10_block_until_ready_nonpositive_witness :
    (-100 : Int) ≤ 0
    ∧ blockUntilReady (-100) 0 [] []
        = Except.error "timeout must be positive" :=
  ⟨by decide, C10_block_until_ready_nonpositive (-100) 0 [] [] (by decide)⟩

/-- `luaCeilDiv a b` overapproximates the quotient: `a ≤ b * ceil(a/b)`. -/
lemma le_mul_luaCeilDiv (a b : Int) (hb : 0 < b) : a ≤ b * luaCeilDiv a b := by
  unfold luaCeilDiv
  rw [Int.fdiv_eq_ediv _ hb.le, mul_neg]
  have h1 := Int.ediv_add_emod (-a) b
  have h2 := Int.emod_nonneg (-a) hb.ne'
  linarith

/-- `luaCeilDiv a b` is the least such integer: it is genuinely the
ceiling of `a / b`. -/
lemma luaCeilDiv_le (a b c : Int) (hb : 0 < b) (h : a ≤ b * c) :
    luaCeilDiv a b ≤ c := by
  unfold luaCeilDiv
  rw [Int.fdiv_eq_ediv _ hb.le, neg_le, Int.le_ediv_iff_mul_le hb]
  have : -c * b = -(b * c) := by ring
  linarith

/-- Claim C8: when the post-refill bucket holds fewer than `incrementBy`
tokens, the token-bucket script returns
`{0, maxTokens, 0, retryAfter - now}` with
`retryAfter = refilledAt + ceil((incrementBy - tokens)/refillRate) * interval`,
and writes nothing: the stored hash is returned unchanged and no
`PEXPIRE` is issued.  The second conjunct certifies that `luaCeilDiv`
is the mathematical ceiling of the quotient. -/
theorem C8_token_bucket_refusal
    (maxTokens interval refillRate now incrementBy : Int)
    (bucket : Option TBState) (s : TBState)
    (hs : s = tbRefill maxTokens interval refillRate now
                (tbInit maxTokens now bucket))
    (hlow : s.tokens < incrementBy) :
    tokenBucketLimitScript maxTokens interval refillRate now incrementBy bucket
      = ([0, maxTokens, 0,
          (s.refilledAt
            + luaCeilDiv (incrementBy - s.tokens) refillRate * interval) - now],
         bucket, none)
    ∧ (0 < refillRate →
        incrementBy - s.tokens
            ≤ refillRate * luaCeilDiv (incrementBy - s.tokens) refillRate
        ∧ ∀ c : Int, incrementBy - s.tokens ≤ refillRate * c →
            luaCeilDiv (incrementBy - s.tokens) refillRate ≤ c) := by
  subst hs
  constructor
  · simp only [tokenBucketLimitScript]
    rw [if_pos hlow]
  · intro hr
    exact ⟨le_mul_luaCeilDiv _ _ hr,
           fun c hc => luaCeilDiv_le _ _ c hr hc⟩

theorem C8_token_bucket_refusal_witness :
    tokenBucketLimitScript 3 1000 1 500 1 (some ⟨0, 0⟩)
      = ([0, 3, 0,
          ((⟨0, 0⟩ : TBState).refilledAt
            + luaCeilDiv (1 - (⟨0, 0⟩ : TBState).tokens) 1 * 1000) - 500],
         some ⟨0, 0⟩, none) :=
  (C8_token_bucket_refusal 3 1000 1 500 1 (some ⟨0, 0⟩) ⟨0, 0⟩
    (by decide) (by decide)).1

/-- Claim C4 counterexample: a sliding-window `limit` call whose script
reply is the rejection sentinel `-1` returns a response with
`remaining = -1 < 0`, violating `0 ≤ remaining ≤ limit`. -/
theorem C4_counterexample :
    slidingWindowLimit 1 1000 1500 none (some 1) none
      = Except.ok ({ success := false, limit := 1, remaining := -1
                   , reset := 2000, reason := none }, some 1)
    ∧ ¬((0 : Int) ≤ -1) := by
  refine ⟨by decide, by decide⟩

lemma one_le_jsIncrementBy (rate : Option Int) : 1 ≤ jsIncrementBy rate := by
  cases rate with
  | none => simp [jsIncrementBy]
  | some r =>
    simp only [jsIncrementBy]
    split
    · exact le_refl 1
    · exact le_max_left 1 r

lemma slidingWeightedPrev_nonneg {now window p : Int} (hwin : 0 < window)
    (hp : 0 ≤ p) : 0 ≤ slidingWeightedPrev now window p := by
  unfold slidingWeightedPrev luaFloorDiv
  apply Int.fdiv_nonneg _ hwin.le
  apply mul_nonneg _ hp
  have := Int.emod_lt_of_pos now hwin
  linarith

lemma max_clamp_bounds {tokens used : Int} (htok : 0 ≤ tokens)
    (hused : 0 ≤ used) :
    0 ≤ max 0 (tokens - used) ∧ max 0 (tokens - used) ≤ tokens :=
  ⟨le_max_left 0 _, max_le htok (by linarith)⟩

lemma tokenBucketLimit_remaining_cases (maxTokens interval refillRate now : Int)
    (rate : Option Int) (bucket : Option TBState) :
    (tokenBucketLimit maxTokens interval refillRate now rate bucket).1.remaining = 0
    ∨ (tokenBucketLimit maxTokens interval refillRate now rate bucket).1.remaining = 1 := by
  simp only [tokenBucketLimit, tokenBucketLimitScript]
  split
  · left; rfl
  · right; rfl

/-- Claim C4 as amended: every response of fixed-window `limit` and
`getRemaining`, sliding-window `getRemaining`, and token-bucket `limit`
and `getRemaining` satisfies `0 ≤ remaining ≤ limit` (under positive
configuration, nonnegative stored counters, and a stored bucket hash
within `[0, maxTokens]`); sliding-window `limit` is the exception — its
`remaining` is the raw script reply — but its admitted responses at the
default rate do satisfy the bound. -/
theorem C4_remaining_bounds
    (tokens window now maxTokens interval refillRate : Int)
    (rate : Option Int) (counter cur prev : Option Int)
    (bucket : Option TBState)
    (htok : 1 ≤ tokens) (hwin : 0 < window) (hmax : 1 ≤ maxTokens)
    (hcounter : 0 ≤ counter.getD 0) (hcur : 0 ≤ cur.getD 0)
    (hprev : 0 ≤ prev.getD 0)
    (hbkt : ∀ s : TBState, bucket = some s → 0 ≤ s.tokens ∧ s.tokens ≤ maxTokens) :
    (∀ r st, fixedWindowLimit tokens window now rate counter
        = Except.ok (r, st) → 0 ≤ r.remaining ∧ r.remaining ≤ r.limit)
    ∧ (0 ≤ (fixedWindowGetRemaining tokens window now counter).1
        ∧ (fixedWindowGetRemaining tokens window now counter).1 ≤ tokens)
    ∧ (0 ≤ (slidingWindowGetRemaining tokens window now cur prev).1
        ∧ (slidingWindowGetRemaining tokens window now cur prev).1 ≤ tokens)
    ∧ (0 ≤ (tokenBucketLimit maxTokens interval refillRate now rate bucket).1.remaining
        ∧ (tokenBucketLimit maxTokens interval refillRate now rate bucket).1.remaining
            ≤ (tokenBucketLimit maxTokens interval refillRate now rate bucket).1.limit)
    ∧ (0 ≤ (tokenBucketGetRemaining maxTokens interval now bucket).1
        ∧ (tokenBucketGetRemaining maxTokens interval now bucket).1 ≤ maxTokens)
    ∧ (∀ r st, slidingWindowLimit tokens window now none cur prev
        = Except.ok (r, st) → r.success = true →
          0 ≤ r.remaining ∧ r.remaining ≤ r.limit) := by
  have hincr := one_le_jsIncrementBy rate
  refine ⟨?_, ?_, ?_, ?_, ?_, ?_⟩
  · intro r st h
    have hne : ¬window ≤ 0 := not_le.mpr hwin
    simp only [fixedWindowLimit, fixedWindowLimitScript, if_neg hne,
      Except.ok.injEq, Prod.mk.injEq] at h
    obtain ⟨rfl, rfl⟩ := h
    exact max_clamp_bounds (by linarith) (by linarith)
  · exact max_clamp_bounds (by linarith) hcounter
  · exact max_clamp_bounds (by linarith)
      (add_nonneg hcur (slidingWeightedPrev_nonneg hwin hprev))
  · have hlim : (tokenBucketLimit maxTokens interval refillRate now rate bucket).1.limit
        = maxTokens := rfl
    rw [hlim]
    rcases tokenBucketLimit_remaining_cases maxTokens interval refillRate now rate bucket
      with h | h <;> rw [h] <;> constructor <;> linarith
  · cases bucket with
    | none =>
      simp only [tokenBucketGetRemaining]
      exact ⟨by linarith, le_refl maxTokens⟩
    | some s =>
      obtain ⟨h1, h2⟩ := hbkt s rfl
      simpa only [tokenBucketGetRemaining] using ⟨h1, h2⟩
  · intro r st h hsucc
    have hne1 : ¬tokens ≤ 0 := by linarith
    have hne3 : ¬window ≤ 0 := not_le.mpr hwin
    simp only [slidingWindowLimit, slidingWindowLimitScript, jsIncrementBy,
      if_neg hne1, if_neg hne3] at h
    split at h
    · exact absurd h (by simp)
    · rename_i remaining cur2 heq
      simp only [Except.ok.injEq, Prod.mk.injEq] at h
      obtain ⟨rfl, rfl⟩ := h
      split at heq
      · exact absurd heq (by simp)
      · split at heq
        · rename_i h10
          exact absurd h10 (by norm_num)
        · split at heq
          · simp only [Except.ok.injEq, Prod.mk.injEq] at heq
            obtain ⟨h1, _⟩ := heq
            subst h1
            simp at hsucc
          · simp only [Except.ok.injEq, Prod.mk.injEq] at heq
            obtain ⟨h1, _⟩ := heq
            subst h1
            have hwp := @slidingWeightedPrev_nonneg now window (prev.getD 0) hwin hprev
            refine ⟨by simpa using hsucc, ?_⟩
            show tokens - (cur.getD 0 + 1 + slidingWeightedPrev now window (prev.getD 0))
                ≤ tokens
            linarith [hcur]

theorem C4_remaining_bounds_witness :
    (0 ≤ (fixedWindowGetRemaining 2 1000 1500 none).1
      ∧ (fixedWindowGetRemaining 2 1000 1500 none).1 ≤ 2)
    ∧ (0 ≤ (tokenBucketLimit 3 1000 1 1500 none (some ⟨0, 2⟩)).1.remaining
      ∧ (tokenBucketLimit 3 1000 1 1500 none (some ⟨0, 2⟩)).1.remaining
          ≤ (tokenBucketLimit 3 1000 1 1500 none (some ⟨0, 2⟩)).1.limit) := by
  have H := C4_remaining_bounds 2 1000 1500 3 1000 1 none none none none
    (some ⟨0, 2⟩) (by decide) (by decide) (by decide) (by decide) (by decide)
    (by decide) (fun s hs => by injection hs with h; subst h; decide)
  exact ⟨H.2.1, H.2.2.2.1⟩

/-- Characterisation of the `blockUntilReady` retry loop: the returned
response is the last one consumed, all earlier responses were failures,
a success exit performs no sleep in its final iteration, a failure exit
happens because the post-sleep clock reading exceeded the deadline, and
every sleep is `min(reset, deadline) - now` for its iteration. -/
lemma burLoop_spec :
    ∀ (rs : List RatelimitResponse) (clock : List Int) (deadline : Int)
      (r : RatelimitResponse) (sleeps : List Int) (n : Nat),
      burLoop deadline rs clock = Except.ok (r, sleeps, n) →
      1 ≤ n
      ∧ rs.get? (n - 1) = some r
      ∧ (∀ i, i + 1 < n → ∃ x, rs.get? i = some x ∧ x.success = false)
      ∧ (r.success = true → sleeps.length + 1 = n)
      ∧ (r.success = false →
          sleeps.length = n
          ∧ ∃ c, clock.get? (2 * n - 1) = some c ∧ deadline < c)
      ∧ (∀ i, i < sleeps.length →
          ∃ x now1, rs.get? i = some x ∧ x.success = false ∧ x.reset ≠ 0
            ∧ clock.get? (2 * i) = some now1
            ∧ sleeps.get? i = some (min x.reset deadline - now1)) := by
  intro rs
  induction rs with
  | nil =>
    intro clock deadline r sleeps n h
    simp [burLoop] at h
  | cons res rest ih =>
    intro clock deadline r sleeps n h
    simp only [burLoop] at h
    by_cases hsucc : res.success = true
    · rw [if_pos hsucc] at h
      simp only [Except.ok.injEq, Prod.mk.injEq] at h
      obtain ⟨rfl, rfl, rfl⟩ := h
      refine ⟨le_refl 1, rfl, ?_, fun _ => rfl, ?_, ?_⟩
      · intro i hi
        omega
      · intro hfalse
        simp [hsucc] at hfalse
      · intro i hi
        simp at hi
    · have hsf : res.success = false := by
        revert hsucc
        cases res.success <;> simp
      rw [if_neg hsucc] at h
      by_cases hr0 : res.reset = 0
      · rw [if_pos hr0] at h
        simp at h
      · rw [if_neg hr0] at h
        split at h
        · rename_i now1 now2 crest
          by_cases hd : deadline < now2
          · rw [if_pos hd] at h
            simp only [Except.ok.injEq, Prod.mk.injEq] at h
            obtain ⟨rfl, rfl, rfl⟩ := h
            refine ⟨le_refl 1, rfl, ?_, ?_, ?_, ?_⟩
            · intro i hi
              omega
            · intro htrue
              exact absurd htrue hsucc
            · intro _
              exact ⟨rfl, now2, rfl, hd⟩
            · intro i hi
              have hi0 : i = 0 := by simpa using hi
              subst hi0
              exact ⟨res, now1, rfl, hsf, hr0, rfl, rfl⟩
          · rw [if_neg hd] at h
            split at h
            · rename_i r0 ws m heq
              simp only [Except.ok.injEq, Prod.mk.injEq] at h
              obtain ⟨rfl, rfl, rfl⟩ := h
              obtain ⟨hm1, hget, hmid, hstrue, hsfalse, hsleeps⟩ :=
                ih crest deadline r0 ws m heq
              obtain ⟨k, rfl⟩ : ∃ k, m = k + 1 := ⟨m - 1, by omega⟩
              refine ⟨by omega, ?_, ?_, ?_, ?_, ?_⟩
              · simpa using hget
              · intro i hi
                match i with
                | 0 => exact ⟨res, rfl, hsf⟩
                | j + 1 =>
                  obtain ⟨x, hx1, hx2⟩ := hmid j (by omega)
                  exact ⟨x, by simpa using hx1, hx2⟩
              · intro htrue
                have := hstrue htrue
                simp only [List.length_cons]
                omega
              · intro hfalse
                obtain ⟨hlen, c, hc1, hc2⟩ := hsfalse hfalse
                refine ⟨by simp [List.length_cons, hlen], c, ?_, hc2⟩
                have hidx : 2 * (k + 1 + 1) - 1 = 2 * (k + 1) - 1 + 2 := by omega
                rw [hidx]
                simpa using hc1
              · intro i hi
                match i with
                | 0 => exact ⟨res, now1, rfl, hsf, hr0, rfl, rfl⟩
                | j + 1 =>
                  have hj : j < ws.length := by simpa using hi
                  obtain ⟨x, nj, h1, h2, h3, h4, h5⟩ := hsleeps j hj
                  refine ⟨x, nj, by simpa using h1, h2, h3, ?_, by simpa using h5⟩
                  have hidx : 2 * (j + 1) = 2 * j + 2 := by omega
                  rw [hidx]
                  simpa using h4
            · rename_i e heq
              simp at h
        · rename_i hclock
          simp at h

/-- Claim C7: in every `blockUntilReady` iteration where `limit` returns
`success = false` with `reset ≠ 0`, the loop sleeps
`min(res.reset, deadline) - now` milliseconds with
`deadline = call time + maxWaitMs`; when `now > deadline` after the
sleep it returns the last response observed (a failure); when `limit`
returns `success = true` it returns that response immediately, having
consumed every earlier (failing) response exactly once. -/
theorem C7_block_until_ready_loop
    (timeout now0 : Int) (rs : List RatelimitResponse) (clock : List Int)
    (r : RatelimitResponse) (sleeps : List Int) (n : Nat)
    (h : blockUntilReady timeout now0 rs clock = Except.ok (r, sleeps, n)) :
    1 ≤ n
    ∧ rs.get? (n - 1) = some r
    ∧ (∀ i, i + 1 < n → ∃ x, rs.get? i = some x ∧ x.success = false)
    ∧ (r.success = true → sleeps.length + 1 = n)
    ∧ (r.success = false →
        sleeps.length = n
        ∧ ∃ c, clock.get? (2 * n - 1) = some c ∧ now0 + timeout < c)
    ∧ (∀ i, i < sleeps.length →
        ∃ x now1, rs.get? i = some x ∧ x.success = false ∧ x.reset ≠ 0
          ∧ clock.get? (2 * i) = some now1
          ∧ sleeps.get? i = some (min x.reset (now0 + timeout) - now1)) := by
  by_cases ht : timeout ≤ 0
  · simp [blockUntilReady, ht] at h
  · rw [blockUntilReady, if_neg ht] at h
    exact burLoop_spec rs clock (now0 + timeout) r sleeps n h

theorem C7_block_until_ready_loop_witness :
    (1 : Nat) ≤ 2
    ∧ [({ success := false, limit := 2, remaining := 0, reset := 800
        , reason := none } : RatelimitResponse),
       { success := true, limit := 2, remaining := 1, reset := 900
       , reason := none }].get? (2 - 1)
        = some { success := true, limit := 2, remaining := 1, reset := 900
               , reason := none } := by
  have H := C7_block_until_ready_loop 1000 0
    [⟨false, 2, 0, 800, none⟩, ⟨true, 2, 1, 900, none⟩] [100, 900]
    ⟨true, 2, 1, 900, none⟩ [700] 2 (by decide)
  exact ⟨H.1, H.2.1⟩

end HummnRatelimit
